import Mathlib

/-!
Shallow embedding of the multiplayer synchronization core of the
`breakfloor` repository (`src/player.rs`, `src/level.rs`,
`src/network_manager.rs`, `src/player_event.rs`).

Modelling conventions:
* `f32` scalars are modelled as exact rationals (`ℚ`); the two uses of
  `f32::EPSILON` in `Player::interpolate_state` are modelled as exact
  comparisons with zero.
* 3-component `Vector3<f32>` positions and velocities are modelled by their
  coordinate along the axis of interest.  Every vector operation the embedded
  code performs (componentwise subtraction and addition, scaling by a scalar)
  acts componentwise, and `interpolate_state` only ever adds a scalar multiple
  of the difference vector `new_state.position - previous_state.position` to
  the body and to the stored previous states, so each coordinate follows the
  same scalar recurrence; the Euclidean magnitude of the one-dimensional
  difference is the absolute value.
* `u32` quantities (player indices, fuel) are modelled as `ℕ`; `.clamp(0, M)`
  on a `u32` is `min · M` since the lower clamp at 0 is the identity on `ℕ`,
  and the one unsigned subtraction (`flight_fuel - 3`) is `Nat` truncated
  subtraction, exactly as wrapping-free `u32` subtraction behaves when the
  operand is at least 3 (the guarded case proved below).
* Socket addresses are opaque identifiers, modelled as `ℕ`.
* The fyrox scene graph, as far as `Level::destroy_block` observes it
  (`handle_from_index` / `is_valid_handle` / `remove_node`), is modelled as
  the finite set of currently live node indices: a freshly looked-up handle is
  valid exactly when a node with that index is alive, and `remove_node`
  removes it.
-/

namespace Breakfloor

/-- Socket addresses (`std::net::SocketAddr`) are opaque identifiers. -/
abbrev Addr := ℕ

/-! ### Constants (src/player.rs lines 50-55) -/

/-- `const MOVEMENT_SPEED: f32 = 1.5` (player.rs:50). -/
def MOVEMENT_SPEED : ℚ := 3/2

/-- `const MAX_FUEL: u32 = 225` (player.rs:54). -/
def MAX_FUEL : ℕ := 225

/-- `pub const SYNC_FREQUENCY: u32 = 3` (player.rs:55). -/
def SYNC_FREQUENCY : ℕ := 3

/-- `let min_smooth_speed: f32 = MOVEMENT_SPEED / 6.0` (player.rs:574). -/
def MIN_SMOOTH_SPEED : ℚ := MOVEMENT_SPEED / 6

/-- `let target_catchup_time: f32 = 0.15` (player.rs:575). -/
def TARGET_CATCHUP_TIME : ℚ := 3/20

/-! ### Player state and controller (src/player.rs lines 57-106) -/

/-- `PlayerState` (player.rs:97-106); position/velocity are the coordinate of
the `Vector3<f32>` along the axis of interest. -/
structure PlayerState where
  timestamp : ℚ
  position : ℚ
  velocity : ℚ
  yaw : ℚ
  pitch : ℚ
  shoot : Bool
  fuel : ℕ
deriving DecidableEq, Repr

/-- `PlayerController` (player.rs:57-74). -/
structure PlayerController where
  move_forward : Bool
  move_backward : Bool
  move_left : Bool
  move_right : Bool
  move_up : Bool
  jump : Bool
  fly : Bool
  pitch : ℚ
  yaw : ℚ
  dest_pitch : ℚ
  dest_yaw : ℚ
  shoot : Bool
  new_states : List PlayerState
  previous_states : List PlayerState
  smoothing_speed : ℚ
deriving DecidableEq, Repr

/-! ### Applying an `UpdateState` event
(`Level::update`, `PlayerEvent::UpdateState` arm, level.rs:273-304). -/

/-- The `PlayerState` value built from the fields of an incoming
`PlayerEvent::UpdateState` (level.rs:285-293). -/
def mkUpdateState (timestamp position velocity yaw pitch : ℚ) (shoot : Bool)
    (fuel : ℕ) : PlayerState :=
  { timestamp := timestamp, position := position, velocity := velocity,
    yaw := yaw, pitch := pitch, shoot := shoot, fuel := fuel }

/-- The `PlayerEvent::UpdateState` arm of `Level::update` (level.rs:283-303),
restricted to its effect on the matched player's controller: trim
`new_states` to the buffer length 1 (removing the oldest entry and resetting
`smoothing_speed` to 0 when the buffer is full), then push the new snapshot.
`previous_states` is not touched by this arm. -/
def applyUpdateState (c : PlayerController) (timestamp position velocity yaw
    pitch : ℚ) (shoot : Bool) (fuel : ℕ) : PlayerController :=
  let new_state := mkUpdateState timestamp position velocity yaw pitch shoot fuel
  let length := c.new_states.length
  let buffer_length := 1
  let c :=
    if length ≥ buffer_length then
      { c with new_states := c.new_states.eraseIdx 0, smoothing_speed := 0 }
    else c
  { c with new_states := c.new_states ++ [new_state] }

/-! ### Recording previous states each tick (level.rs:414-430). -/

/-- The per-tick recording of a player's live state into
`previous_states` (capacity 3, oldest dropped first), level.rs:424-430. -/
def pushPreviousState (c : PlayerController) (s : PlayerState) :
    PlayerController :=
  let length := c.previous_states.length
  let buffer_length := 3
  let c :=
    if length ≥ buffer_length then
      { c with previous_states := c.previous_states.eraseIdx 0 }
    else c
  { c with previous_states := c.previous_states ++ [s] }

/-! ### Destroying blocks (`Level::destroy_block`, level.rs:519-535). -/

/-- The authoritative per-level session state `LevelState` (level.rs:29-32)
together with the part of the fyrox scene graph `destroy_block` observes:
the set of live scene-graph node indices. -/
structure LevelWorld where
  nodes : Finset ℕ
  destroyed_blocks : List ℕ
deriving DecidableEq

/-- `Level::destroy_block` (level.rs:519-535): look the handle up by index;
if it is a valid live handle, remove the node and (on the server) record the
index in `state.destroyed_blocks`; otherwise do nothing. -/
def destroyBlock (w : LevelWorld) (index : ℕ) : LevelWorld :=
  if index ∈ w.nodes then
    { nodes := w.nodes.erase index,
      destroyed_blocks := w.destroyed_blocks ++ [index] }
  else w

/-! ### Connection registry (src/network_manager.rs). -/

/-- `PlayerConnection` (network_manager.rs:577-581). -/
structure PlayerConnection where
  socket_addr : Addr
  player_index : ℕ
deriving DecidableEq, Repr

/-- The registry part of `NetworkManager` (network_manager.rs:22-29). -/
structure Registry where
  connections : List PlayerConnection
  highest_player_index : ℕ
deriving DecidableEq, Repr

/-- `NetworkManager::new` starts with no connections and
`highest_player_index = 0` (network_manager.rs:70-78). -/
def initRegistry : Registry := { connections := [], highest_player_index := 0 }

/-- The index assigned on `SocketEvent::Connect` (network_manager.rs:336-343):
`connections.iter().map(|c| c.player_index).max().get_or_insert(highest) + 1`,
i.e. one more than the maximum live index, or one more than the stored
high-water mark when no connection is live. -/
def connectIndex (r : Registry) : ℕ :=
  ((r.connections.map PlayerConnection.player_index).max?.getD
    r.highest_player_index) + 1

/-- The `SocketEvent::Connect` arm's effect on the registry
(network_manager.rs:333-348): update the high-water mark and push the new
connection. -/
def onConnect (r : Registry) (address : Addr) : Registry :=
  let idx := connectIndex r
  { connections :=
      r.connections ++ [{ socket_addr := address, player_index := idx }],
    highest_player_index := idx }

/-- The `SocketEvent::Disconnect` arm's effect on the registry
(network_manager.rs:403-404): retain connections with a different address. -/
def onDisconnect (r : Registry) (address : Addr) : Registry :=
  { r with connections :=
      r.connections.filter (fun c => c.socket_addr ≠ address) }

/-- A transport-level connection lifecycle event. -/
inductive RegistryEvent
  | connect (address : Addr)
  | disconnect (address : Addr)
deriving DecidableEq, Repr

/-- Process one lifecycle event. -/
def applyRegistryEvent (r : Registry) : RegistryEvent → Registry
  | .connect a => onConnect r a
  | .disconnect a => onDisconnect r a

/-- Process a sequence of lifecycle events in arrival order. -/
def applyRegistryEvents (r : Registry) (es : List RegistryEvent) : Registry :=
  es.foldl applyRegistryEvent r

/-- `NetworkManager::get_index_for_address` (network_manager.rs:549-554). -/
def getIndexForAddress (r : Registry) (address : Addr) : Option ℕ :=
  (r.connections.find? (fun c => c.socket_addr == address)).map
    PlayerConnection.player_index

/-! ### Wire messages and outgoing packets. -/

/-- `SerializableVector` (player_event.rs). -/
structure SerializableVector where
  x : ℚ
  y : ℚ
  z : ℚ
deriving DecidableEq, Repr

/-- `Default::default()` for `SerializableVector`. -/
def SerializableVector.default : SerializableVector := ⟨0, 0, 0⟩

/-- `SerializablePlayerState` (player_event.rs). -/
structure SerializablePlayerState where
  position : SerializableVector
  velocity : SerializableVector
  yaw : ℚ
  pitch : ℚ
  shoot : Bool
deriving DecidableEq, Repr

/-- `Default::default()` for `SerializablePlayerState`. -/
def SerializablePlayerState.default : SerializablePlayerState :=
  ⟨SerializableVector.default, SerializableVector.default, 0, 0, false⟩

/-- `PlayerEvent` (player_event.rs), restricted to the variants the router
and applier code under scrutiny constructs or matches. -/
inductive PlayerEvent
  | shootWeapon (index : ℕ) (active : Bool) (yaw pitch : ℚ)
  | moveForward (index : ℕ) (active : Bool) (yaw pitch : ℚ)
  | moveBackward (index : ℕ) (active : Bool) (yaw pitch : ℚ)
  | moveLeft (index : ℕ) (active : Bool) (yaw pitch : ℚ)
  | moveRight (index : ℕ) (active : Bool) (yaw pitch : ℚ)
  | jump (index : ℕ)
  | lookAround (index : ℕ) (yaw_delta pitch_delta : ℚ)
  | fly (index : ℕ) (active : Bool) (fuel : ℕ)
  | updateState (timestamp : ℚ) (index : ℕ) (position velocity : SerializableVector)
      (yaw pitch : ℚ) (shoot : Bool) (fuel : ℕ)
  | destroyBlockEvent (index : ℕ)
  | killPlayer (index : ℕ)
  | spawnPlayer (state : SerializablePlayerState) (index : ℕ)
      (current_player : Bool)
deriving DecidableEq, Repr

/-- `NetworkMessage` (network_manager.rs:570-576). -/
inductive NetworkMessage
  | connected
  | disconnected
  | playerEvent (index : ℕ) (event : PlayerEvent)
  | gameEvent
deriving DecidableEq, Repr

/-- The two laminar channel kinds used by the router: `reliable_ordered`
with an optional stream id, and `unreliable_sequenced`. -/
inductive Channel
  | reliableOrdered (stream : Option ℕ)
  | unreliableSequenced
deriving DecidableEq, Repr

/-- One packet handed to the transport's send queue. -/
structure Packet where
  dest : Addr
  channel : Channel
  message : NetworkMessage
deriving DecidableEq, Repr

/-- `NetworkManager::get_connection_stream_id` (network_manager.rs:556-558):
the low byte of the little-endian encoding of the `u32` player index. -/
def getConnectionStreamId (c : PlayerConnection) : Option ℕ :=
  some (c.player_index % 256)

/-- `NetworkManager::send_to_all_reliably` (network_manager.rs:490-500). -/
def sendToAllReliably (r : Registry) (message : NetworkMessage) : List Packet :=
  r.connections.map (fun c =>
    { dest := c.socket_addr,
      channel := Channel.reliableOrdered (getConnectionStreamId c),
      message := message })

/-- `NetworkManager::send_to_all_except_address_unreliably`
(network_manager.rs:440-461): every connection whose address differs from the
sender's receives `redundancy + 1` copies (the loop runs `0..=redundancy`)
on the unreliable-sequenced channel. -/
def sendToAllExceptAddressUnreliably (r : Registry) (address : Addr)
    (message : NetworkMessage) (redundancy : ℕ) : List Packet :=
  (r.connections.filter (fun c => c.socket_addr ≠ address)).flatMap (fun c =>
    List.replicate (redundancy + 1)
      { dest := c.socket_addr, channel := Channel.unreliableSequenced,
        message := message })

/-- `NetworkManager::send_to_all_except_address_reliably`
(network_manager.rs:420-438). -/
def sendToAllExceptAddressReliably (r : Registry) (address : Addr)
    (message : NetworkMessage) : List Packet :=
  (r.connections.filter (fun c => c.socket_addr ≠ address)).map (fun c =>
    { dest := c.socket_addr,
      channel := Channel.reliableOrdered (getConnectionStreamId c),
      message := message })

/-- `NetworkManager::get_address_stream_id` (network_manager.rs:560-567);
the model keeps the server's own address alongside the registry. -/
def getAddressStreamId (r : Registry) (server_addr address : Addr) :
    Option ℕ :=
  if address = server_addr then some 0
  else (getIndexForAddress r address).map (fun player_index => player_index % 256)

/-- `NetworkManager::send_to_address_reliably` (network_manager.rs:463-471). -/
def sendToAddressReliably (r : Registry) (server_addr address : Addr)
    (message : NetworkMessage) : List Packet :=
  [{ dest := address,
     channel := Channel.reliableOrdered (getAddressStreamId r server_addr address),
     message := message }]

/-! ### Server-side state the router validates against. -/

/-- The fields of `Player` (player.rs:76-95) the server-side router reads:
the registry-assigned index, the weapon cooldown timer and the flight fuel. -/
structure ServerPlayer where
  index : ℕ
  shot_timer : ℚ
  flight_fuel : ℕ
deriving DecidableEq, Repr

/-- `Player::has_fuel` (player.rs:614-616): `flight_fuel >= 3`. -/
def hasFuel (flight_fuel : ℕ) : Bool :=
  decide (3 ≤ flight_fuel)

/-- `Player::has_fuel` read off a server-side player. -/
def ServerPlayer.has_fuel (p : ServerPlayer) : Bool :=
  hasFuel p.flight_fuel

/-- `Player::can_shoot` (player.rs:618-620): `shot_timer <= 0.0`. -/
def ServerPlayer.can_shoot (p : ServerPlayer) : Bool :=
  decide (p.shot_timer ≤ 0)

/-- The players of the live level (`Level::players`). -/
structure ServerLevel where
  players : List ServerPlayer
deriving DecidableEq, Repr

/-- `Level::get_player_by_index` (level.rs:99-101). -/
def getPlayerByIndex (l : ServerLevel) (index : ℕ) : Option ServerPlayer :=
  l.players.find? (fun p => p.index == index)

/-- What one pass through a `handle_events` arm produces: the events queued
into the session's event queue and the packets handed to the transport. -/
structure RouterOutput where
  queued : List PlayerEvent
  sent : List Packet
deriving DecidableEq, Repr

/-- The empty router output (event neither queued nor relayed). -/
def RouterOutput.empty : RouterOutput := { queued := [], sent := [] }

/-- Server `PlayerEvent::ShootWeapon` arm (network_manager.rs:97-119).
The inner pattern binding `index` shadows the envelope's `index`, so
`*index = net_index` overwrites only the event's own index field; the
envelope keeps the client-claimed `outerIdx`.  The event is queued and
relayed (reliably, to every connection) only when the sender address
resolves to a registered index whose player exists and
`!active || player.can_shoot()`. -/
def handleShootWeapon (r : Registry) (l : ServerLevel) (sender : Addr)
    (outerIdx claimedIdx : ℕ) (active : Bool) (yaw pitch : ℚ) : RouterOutput :=
  match getIndexForAddress r sender with
  | none => RouterOutput.empty
  | some net_index =>
      let ev := PlayerEvent.shootWeapon net_index active yaw pitch
      let message := NetworkMessage.playerEvent outerIdx ev
      match getPlayerByIndex l net_index with
      | none => RouterOutput.empty
      | some player =>
          if !active || player.can_shoot then
            { queued := [ev], sent := sendToAllReliably r message }
          else RouterOutput.empty

/-- Server `PlayerEvent::Fly` arm (network_manager.rs:181-206): resolve the
sender, overwrite the event's index and stamp the event's fuel field with the
server's authoritative `flight_fuel`, then queue and relay (unreliably, to
all except the sender, redundancy 0) only when `!active || player.has_fuel()`.
As with Shoot, the envelope index stays client-claimed. -/
def handleFly (r : Registry) (l : ServerLevel) (sender : Addr)
    (outerIdx claimedIdx : ℕ) (active : Bool) (claimedFuel : ℕ) : RouterOutput :=
  match getIndexForAddress r sender with
  | none => RouterOutput.empty
  | some net_index =>
      match getPlayerByIndex l net_index with
      | none => RouterOutput.empty
      | some player =>
          let ev := PlayerEvent.fly net_index active player.flight_fuel
          let message := NetworkMessage.playerEvent outerIdx ev
          if !active || player.has_fuel then
            { queued := [ev],
              sent := sendToAllExceptAddressUnreliably r sender message 0 }
          else RouterOutput.empty

/-- Is this one of the five client-predicted movement/look variants handled
by the combined `LookAround | MoveBackward | MoveForward | MoveLeft |
MoveRight` arm (network_manager.rs:142-146)? -/
def isMovementOrLook : PlayerEvent → Bool
  | .lookAround .. => true
  | .moveBackward .. => true
  | .moveForward .. => true
  | .moveLeft .. => true
  | .moveRight .. => true
  | _ => false

/-- `*index = net_index` on the inner event: overwrite the event's own
`index` field, leaving everything else unchanged. -/
def setEventIndex (e : PlayerEvent) (net_index : ℕ) : PlayerEvent :=
  match e with
  | .shootWeapon _ active yaw pitch => .shootWeapon net_index active yaw pitch
  | .moveForward _ active yaw pitch => .moveForward net_index active yaw pitch
  | .moveBackward _ active yaw pitch => .moveBackward net_index active yaw pitch
  | .moveLeft _ active yaw pitch => .moveLeft net_index active yaw pitch
  | .moveRight _ active yaw pitch => .moveRight net_index active yaw pitch
  | .jump _ => .jump net_index
  | .lookAround _ yd pd => .lookAround net_index yd pd
  | .fly _ active fuel => .fly net_index active fuel
  | .updateState ts _ pos vel yaw pitch shoot fuel =>
      .updateState ts net_index pos vel yaw pitch shoot fuel
  | .destroyBlockEvent _ => .destroyBlockEvent net_index
  | .killPlayer _ => .killPlayer net_index
  | .spawnPlayer st _ cp => .spawnPlayer st net_index cp

/-- Server movement/look arm (network_manager.rs:142-177): when the sender
address resolves to a registered index, overwrite the event's index, queue it
unconditionally and relay it unreliably with redundancy 0 to every connection
except the sender; otherwise do nothing. -/
def handleMovement (r : Registry) (sender : Addr) (outerIdx : ℕ)
    (ev : PlayerEvent) : RouterOutput :=
  if isMovementOrLook ev then
    match getIndexForAddress r sender with
    | none => RouterOutput.empty
    | some net_index =>
        let ev := setEventIndex ev net_index
        let message := NetworkMessage.playerEvent outerIdx ev
        { queued := [ev],
          sent := sendToAllExceptAddressUnreliably r sender message 0 }
  else RouterOutput.empty

/-! ### Join-time spawn placement (`GameEvent::Joined` arm,
network_manager.rs:269-307). -/

/-- The spawn position computed for a joining player of index `index`
(network_manager.rs:270-274):
`{ x: 0.0, y: 2.0, z: 5.0 * (-1.0f32).powi(index as i32) }`. -/
def spawnPosition (index : ℕ) : SerializableVector :=
  { x := 0, y := 2, z := 5 * (-1 : ℚ) ^ index }

/-- The tail of the `GameEvent::Joined` arm once the joiner's index is
resolved (network_manager.rs:269-307): the SpawnPlayer event queued locally
and broadcast reliably to every other connection (`current_player = false`),
and the SpawnPlayer message sent reliably back to the joiner
(`current_player = true`); both carry the same freshly computed position
inside an otherwise default `SerializablePlayerState`. -/
def joinSpawn (r : Registry) (server_addr sender : Addr) (index : ℕ) :
    PlayerEvent × List Packet × List Packet :=
  let position := spawnPosition index
  let broadcastEvent := PlayerEvent.spawnPlayer
    { SerializablePlayerState.default with position := position } index false
  let localEvent := PlayerEvent.spawnPlayer
    { SerializablePlayerState.default with position := position } index true
  (broadcastEvent,
   sendToAllExceptAddressReliably r sender
     (NetworkMessage.playerEvent index broadcastEvent),
   sendToAddressReliably r server_addr sender
     (NetworkMessage.playerEvent index localEvent))

/-! ### Client-side reconciliation (`Player::interpolate_state`,
player.rs:545-612).

The body position is the coordinate of the rigid body's translation along the
axis of interest; `body.local_transform_mut().offset(pos_diff)` adds the
offset to it.  `f32::EPSILON` thresholds are modelled as exact zero
comparisons. -/

/-- `Player::interpolate_state` (player.rs:545-612).  Returns the updated
body position and controller.  When a pending server snapshot and a recorded
previous state exist: compute the positional error, grow `smoothing_speed`
monotonically to at least `max(MIN_SMOOTH_SPEED, error / TARGET_CATCHUP_TIME)`,
move the body by `min(error, dt * smoothing_speed)` along the error direction,
shift every stored previous state by the same offset, and when the gap is
fully closed reset `smoothing_speed` and pop the reconciled snapshot.  A zero
error pops the snapshot immediately. -/
def interpolateState (body : ℚ) (c : PlayerController) (dt : ℚ) :
    ℚ × PlayerController :=
  match c.new_states.head?, c.previous_states.head? with
  | some new_state, some previous_state =>
      let pos_diff := new_state.position - previous_state.position
      let pos_diff_mag := |pos_diff|
      if 0 < pos_diff_mag then
        let smoothing_speed := max c.smoothing_speed
          (max MIN_SMOOTH_SPEED (pos_diff_mag / TARGET_CATCHUP_TIME))
        let max_move := dt * smoothing_speed
        let move_dist := min pos_diff_mag max_move
        let offset := pos_diff * (move_dist / pos_diff_mag)
        let previous_states := c.previous_states.map (fun s =>
          { s with position := s.position + offset })
        if move_dist = pos_diff_mag then
          (body + offset,
           { c with previous_states := previous_states,
                    smoothing_speed := 0,
                    new_states := c.new_states.eraseIdx 0 })
        else
          (body + offset,
           { c with previous_states := previous_states,
                    smoothing_speed := smoothing_speed })
      else
        (body, { c with smoothing_speed := 0,
                        new_states := c.new_states.eraseIdx 0 })
  | _, _ => (body, c)

/-- Iterate `interpolateState` for `n` ticks of length `dt` with no further
snapshots arriving. -/
def stepN (dt : ℚ) : ℕ → ℚ × PlayerController → ℚ × PlayerController
  | 0, st => st
  | n + 1, st => stepN dt n (interpolateState st.1 st.2 dt)

/-- The positional error currently tracked by the reconciliation engine:
the distance between the oldest pending snapshot and the oldest recorded
previous state, or 0 when either buffer is empty. -/
def trackedError (c : PlayerController) : ℚ :=
  match c.new_states.head?, c.previous_states.head? with
  | some s, some p => |s.position - p.position|
  | _, _ => 0

/-! ### The fuel branch of `Player::update` (player.rs:399-408). -/

/-- `.clamp(0, MAX_FUEL)` on a `u32`: the lower clamp at 0 is the identity
on `ℕ`. -/
def clampFuel (n : ℕ) : ℕ := min n MAX_FUEL

/-- The flight-fuel part of one `Player::update` tick (player.rs:399-408):
if the fly intent is set and `has_fuel()` holds, and the vertical velocity is
below 3.0, burn 3 fuel (clamped); afterwards always regenerate 1 fuel
(clamped).  `has_fuel` is `flight_fuel >= 3` (player.rs:614-616). -/
def fuelTick (fly : Bool) (velY : ℚ) (fuel : ℕ) : ℕ :=
  let fuel :=
    if fly && hasFuel fuel then
      if velY < 3 then clampFuel (fuel - 3) else fuel
    else fuel
  clampFuel (fuel + 1)

/-! ## Theorems -/

/-- C7: applying `DestroyBlock(i)` twice in a row yields the same world state
(live nodes and destroyed-block set) as applying it once: the second
application finds no valid handle for `i` and is a no-op, in particular it
does not append a second entry for `i` to `destroyed_blocks`. -/
theorem destroyBlock_idempotent (w : LevelWorld) (i : ℕ) :
    destroyBlock (destroyBlock w i) i = destroyBlock w i := by
  by_cases h : i ∈ w.nodes
  · simp [destroyBlock, h, Finset.not_mem_erase]
  · simp [destroyBlock, h]

/-- C2 counterexample: with `previous_states` holding entries of timestamps
1 < 2 < 3 and an incoming `UpdateState` of timestamp 2, the claim says every
previous state with timestamp ≤ 2 is pruned so that only the timestamp-3
entry remains; the code's `UpdateState` arm never touches `previous_states`,
so all three entries remain. -/
theorem updateState_pruning_counterexample :
    (applyUpdateState
        { move_forward := false, move_backward := false, move_left := false,
          move_right := false, move_up := false, jump := false, fly := false,
          pitch := 0, yaw := 0, dest_pitch := 0, dest_yaw := 0, shoot := false,
          new_states := [],
          previous_states := [⟨1, 0, 0, 0, 0, false, 0⟩,
            ⟨2, 0, 0, 0, 0, false, 0⟩, ⟨3, 0, 0, 0, 0, false, 0⟩],
          smoothing_speed := 0 }
        2 0 0 0 0 false 0).previous_states ≠
      [⟨3, 0, 0, 0, 0, false, 0⟩] := by
  decide

/-- C2 amended: applying an `UpdateState` event leaves `previous_states`
completely unchanged (no timestamp-based pruning happens anywhere in the
arm); the snapshot is enqueued into `new_states` after evicting the pending
entry when the one-slot buffer is full. -/
theorem updateState_previous_states_unchanged (c : PlayerController)
    (timestamp position velocity yaw pitch : ℚ) (shoot : Bool) (fuel : ℕ) :
    (applyUpdateState c timestamp position velocity yaw pitch shoot
        fuel).previous_states = c.previous_states
    ∧ (applyUpdateState c timestamp position velocity yaw pitch shoot
        fuel).new_states =
      (if 1 ≤ c.new_states.length then c.new_states.eraseIdx 0
       else c.new_states) ++
        [mkUpdateState timestamp position velocity yaw pitch shoot fuel] := by
  unfold applyUpdateState
  by_cases h : 1 ≤ c.new_states.length <;> simp [h]

/-- C9: `new_states` is a one-slot buffer.  Applying an `UpdateState` when a
snapshot is already pending first removes the pending snapshot and resets
`smoothing_speed` to 0 before pushing the new one, so starting from at most
one pending snapshot the buffer never exceeds one entry and afterwards holds
exactly the just-applied snapshot; the reconciliation step itself never adds
to `new_states`. -/
theorem new_states_single_buffer_invariant (c : PlayerController)
    (timestamp position velocity yaw pitch : ℚ) (shoot : Bool) (fuel : ℕ)
    (h : c.new_states.length ≤ 1) :
    (applyUpdateState c timestamp position velocity yaw pitch shoot
        fuel).new_states.length ≤ 1
    ∧ (applyUpdateState c timestamp position velocity yaw pitch shoot
        fuel).new_states =
      [mkUpdateState timestamp position velocity yaw pitch shoot fuel]
    ∧ (c.new_states.length = 1 →
        (applyUpdateState c timestamp position velocity yaw pitch shoot
            fuel).smoothing_speed = 0)
    ∧ ∀ body dt, (interpolateState body c dt).2.new_states.length ≤
        c.new_states.length := by
  refine ⟨?_, ?_, ?_, ?_⟩
  case _ =>
    unfold applyUpdateState
    match hc : c.new_states with
    | [] => simp [hc]
    | [s] => simp [hc]
    | s :: t :: rest => rw [hc] at h; simp at h
  case _ =>
    unfold applyUpdateState
    match hc : c.new_states with
    | [] => simp [hc]
    | [s] => simp [hc]
    | s :: t :: rest => rw [hc] at h; simp at h
  case _ =>
    intro h1
    unfold applyUpdateState
    match hc : c.new_states with
    | [] => rw [hc] at h1; simp at h1
    | [s] => simp [hc]
    | s :: t :: rest => rw [hc] at h; simp at h
  case _ =>
    intro body dt
    unfold interpolateState
    match hn : c.new_states.head?, hp : c.previous_states.head? with
    | none, _ => simp
    | some n, none => simp
    | some n, some p =>
      simp only
      split
      · split
        · simp [List.length_eraseIdx]
        · simp
      · simp [List.length_eraseIdx]

/-- C10: the flight-fuel update keeps `flight_fuel` within `[0, MAX_FUEL]`
(the lower bound is inherent to `ℕ`/`u32`), `MAX_FUEL` is 225, and the
unsigned subtraction `flight_fuel - 3` is only reached under the `has_fuel()`
guard, which requires at least 3 fuel, so it agrees with exact integer
subtraction (no underflow). -/
theorem flight_fuel_bounds (fly : Bool) (velY : ℚ) (fuel : ℕ)
    (h : fuel ≤ MAX_FUEL) :
    fuelTick fly velY fuel ≤ MAX_FUEL
    ∧ MAX_FUEL = 225
    ∧ (hasFuel fuel = true → ((fuel - 3 : ℕ) : ℤ) = (fuel : ℤ) - 3)
    ∧ (fly = true → hasFuel fuel = false →
        fuelTick fly velY fuel = clampFuel (fuel + 1)) := by
  refine ⟨?_, rfl, ?_, ?_⟩
  · exact min_le_right _ _
  · intro hf
    have h3 : 3 ≤ fuel := of_decide_eq_true hf
    omega
  · intro hfly hf
    simp [fuelTick, hfly, hf]

/-- C10 witness: a flying player with 100 fuel and zero vertical velocity
stays within the fuel bounds, and its guarded subtraction is exact. -/
theorem flight_fuel_bounds_witness :
    (100 : ℕ) ≤ MAX_FUEL ∧ hasFuel 100 = true
    ∧ fuelTick true 0 100 ≤ MAX_FUEL
    ∧ ((100 - 3 : ℕ) : ℤ) = (100 : ℤ) - 3 :=
  ⟨by decide, by decide, (flight_fuel_bounds true 0 100 (by decide)).1,
   (flight_fuel_bounds true 0 100 (by decide)).2.2.1 (by decide)⟩

/-- C9 witness: a controller with one pending snapshot receives a fresh
`UpdateState`; the buffer stays at one entry holding the new snapshot. -/
theorem new_states_single_buffer_witness :
    (PlayerController.mk false false false false false false false 0 0 0 0
        false [PlayerState.mk 0 0 0 0 0 false 0] [] 5).new_states.length ≤ 1
    ∧ (applyUpdateState
        (PlayerController.mk false false false false false false false 0 0 0 0
          false [PlayerState.mk 0 0 0 0 0 false 0] [] 5)
        9 1 2 3 4 true 7).new_states = [mkUpdateState 9 1 2 3 4 true 7]
    ∧ (applyUpdateState
        (PlayerController.mk false false false false false false false 0 0 0 0
          false [PlayerState.mk 0 0 0 0 0 false 0] [] 5)
        9 1 2 3 4 true 7).smoothing_speed = 0 :=
  ⟨by decide,
   (new_states_single_buffer_invariant _ 9 1 2 3 4 true 7 (by decide)).2.1,
   (new_states_single_buffer_invariant _ 9 1 2 3 4 true 7 (by decide)).2.2.1
     (by decide)⟩

/-- C3 (code evaluated at the failing input): a valid ShootWeapon release
from the registered sender at address 7 (registry index 1), carrying
client-claimed index 99 in both the envelope and the event, is queued and
relayed with the inner event index overwritten to the resolved index 1 — but
the relayed envelope keeps the client-claimed 99.  The arm's own comment says
the resolved index "Must be set on outer index and inner event"; the inner
pattern binding `index` shadows the envelope binding, so only the event field
is written.  A rejected shot (cooldown running, active = true) produces no
output at all. -/
theorem shootWeapon_envelope_keeps_claimed_index :
    (handleShootWeapon ⟨[⟨7, 1⟩], 1⟩ ⟨[⟨1, 0, 225⟩]⟩ 7 99 99 false 0
        0).sent.map Packet.message
      = [NetworkMessage.playerEvent 99 (PlayerEvent.shootWeapon 1 false 0 0)]
    ∧ (handleShootWeapon ⟨[⟨7, 1⟩], 1⟩ ⟨[⟨1, 0, 225⟩]⟩ 7 99 99 false 0
        0).queued = [PlayerEvent.shootWeapon 1 false 0 0]
    ∧ (99 : ℕ) ≠ 1
    ∧ handleShootWeapon ⟨[⟨7, 1⟩], 1⟩ ⟨[⟨1, (1 : ℚ), 225⟩]⟩ 7 99 99 true 0 0
      = RouterOutput.empty := by
  decide

/-- C8 counterexample: the claim places the player of index 0 at x = +1.5 and
index 1 at x = −1.5; the code computes the spawn position
`(0, 2, 5·(−1)^index)`, so both players spawn at x = 0 and the alternation is
along z (+5 for index 0, −5 for index 1). -/
theorem spawnPosition_counterexample :
    (spawnPosition 0).x ≠ 3/2
    ∧ spawnPosition 0 = ⟨0, 2, 5⟩ ∧ spawnPosition 1 = ⟨0, 2, -5⟩ := by
  refine ⟨?_, ?_, ?_⟩
  · norm_num [spawnPosition]
  · simp [spawnPosition]
  · simp [spawnPosition]

/-- C8 amended: the spawn position of a joining player is the deterministic
parity-alternating point (0, 2, ±5) — z = +5 for even indices (index 0) and
z = −5 for odd indices (index 1) — and the broadcast SpawnPlayer event, every
packet of the broadcast to the other connections, and the `is_local`
(`current_player = true`) message back to the joiner all carry exactly this
position. -/
theorem spawnPosition_parity_join (r : Registry) (server_addr sender : Addr)
    (index : ℕ) :
    spawnPosition index = ⟨0, 2, if index % 2 = 0 then 5 else -5⟩
    ∧ (joinSpawn r server_addr sender index).1 =
        PlayerEvent.spawnPlayer
          { SerializablePlayerState.default with position := spawnPosition index }
          index false
    ∧ (∀ p ∈ (joinSpawn r server_addr sender index).2.1,
        p.message = NetworkMessage.playerEvent index
          (PlayerEvent.spawnPlayer
            { SerializablePlayerState.default with
                position := spawnPosition index } index false))
    ∧ (∀ p ∈ (joinSpawn r server_addr sender index).2.2,
        p.message = NetworkMessage.playerEvent index
          (PlayerEvent.spawnPlayer
            { SerializablePlayerState.default with
                position := spawnPosition index } index true)) := by
  refine ⟨?_, rfl, ?_, ?_⟩
  · unfold spawnPosition
    by_cases h : index % 2 = 0
    · have he : Even index := Nat.even_iff.mpr h
      simp [h, he.neg_one_pow]
    · have ho : Odd index := Nat.odd_iff.mpr (Nat.mod_two_ne_zero.mp h)
      simp [h, ho.neg_one_pow]
  · intro p hp
    simp only [joinSpawn, sendToAllExceptAddressReliably, List.mem_map] at hp
    obtain ⟨c, -, rfl⟩ := hp
    rfl
  · intro p hp
    simp only [joinSpawn, sendToAddressReliably, List.mem_singleton] at hp
    subst hp
    rfl

/-- C8 amended witness: for a concrete registry and the joiner of index 3 at
address 1, the local SpawnPlayer packet carries position (0, 2, −5). -/
theorem spawnPosition_parity_join_witness :
    (Packet.mk 1 (Channel.reliableOrdered (some 3))
        (NetworkMessage.playerEvent 3
          (PlayerEvent.spawnPlayer
            { SerializablePlayerState.default with position := spawnPosition 3 }
            3 true)))
      ∈ (joinSpawn ⟨[⟨1, 3⟩, ⟨2, 4⟩], 4⟩ 0 1 3).2.2
    ∧ (Packet.mk 1 (Channel.reliableOrdered (some 3))
        (NetworkMessage.playerEvent 3
          (PlayerEvent.spawnPlayer
            { SerializablePlayerState.default with position := spawnPosition 3 }
            3 true))).message
      = NetworkMessage.playerEvent 3
          (PlayerEvent.spawnPlayer
            { SerializablePlayerState.default with position := spawnPosition 3 }
            3 true) :=
  ⟨by simp [joinSpawn, sendToAddressReliably, getAddressStreamId,
      getIndexForAddress, List.find?],
   (spawnPosition_parity_join ⟨[⟨1, 3⟩, ⟨2, 4⟩], 4⟩ 0 1 3).2.2.2 _
     (by simp [joinSpawn, sendToAddressReliably, getAddressStreamId,
       getIndexForAddress, List.find?])⟩

/-- Folding `max` over a list never drops below the seed. -/
theorem le_foldl_max (l : List ℕ) (b : ℕ) : b ≤ l.foldl max b := by
  induction l generalizing b with
  | nil => exact le_rfl
  | cons x xs ih => exact le_trans (le_max_left b x) (ih (max b x))

/-- Every member of a list is bounded by the fold of `max` over it. -/
theorem mem_le_foldl_max (l : List ℕ) (b a : ℕ) (ha : a ∈ l) :
    a ≤ l.foldl max b := by
  induction l generalizing b with
  | nil => simp at ha
  | cons x xs ih =>
    rcases List.mem_cons.mp ha with rfl | h
    · exact le_trans (le_max_right b a) (le_foldl_max xs (max b a))
    · exact ih (max b x) h

/-- Every member of a list is bounded by its `max?`. -/
theorem mem_le_listMax? {l : List ℕ} {a m : ℕ} (ha : a ∈ l)
    (hm : l.max? = some m) : a ≤ m := by
  cases l with
  | nil => simp at ha
  | cons x xs =>
    have hx : (x :: xs).max? = some (xs.foldl max x) := rfl
    rw [hx] at hm
    obtain rfl : m = xs.foldl max x := (Option.some.injEq _ _ ▸ hm).symm
    rcases List.mem_cons.mp ha with rfl | h
    · exact le_foldl_max xs a
    · exact mem_le_foldl_max xs x a h

/-- The index handed out at the next connect is strictly greater than the
index of every currently live connection, for any registry state. -/
theorem connectIndex_fresh (r : Registry) :
    ∀ c ∈ r.connections, c.player_index < connectIndex r := by
  intro c hc
  have hmem : c.player_index ∈ r.connections.map PlayerConnection.player_index :=
    List.mem_map_of_mem _ hc
  unfold connectIndex
  cases hl : r.connections.map PlayerConnection.player_index with
  | nil => rw [hl] at hmem; simp at hmem
  | cons x xs =>
    rw [hl] at hmem
    have hx : (x :: xs).max? = some (xs.foldl max x) := rfl
    rw [hx, Option.getD_some]
    exact Nat.lt_succ_of_le (mem_le_listMax? hmem hx)

/-- One registry transition preserves pairwise-distinct player indices. -/
theorem registry_step_pairwise {r : Registry}
    (h : r.connections.Pairwise (fun c d => c.player_index ≠ d.player_index))
    (e : RegistryEvent) :
    (applyRegistryEvent r e).connections.Pairwise
      (fun c d => c.player_index ≠ d.player_index) := by
  cases e with
  | connect a =>
    simp only [applyRegistryEvent, onConnect]
    rw [List.pairwise_append]
    refine ⟨h, List.pairwise_singleton _ _, ?_⟩
    intro c hc d hd
    rw [List.mem_singleton] at hd
    subst hd
    exact Nat.ne_of_lt (connectIndex_fresh r c hc)
  | disconnect a =>
    exact h.sublist (List.filter_sublist _)

/-- C4: starting from the initial registry, after any sequence of connect and
disconnect events no two simultaneously live connections share a
player index, and the index the next connect would hand out — one more than
the maximum live index (or the high-water mark when none is live) — is
strictly greater than every live index, so an index is never reassigned while
a connection holding it is live. -/
theorem registry_indices_unique (es : List RegistryEvent) :
    (applyRegistryEvents initRegistry es).connections.Pairwise
      (fun c d => c.player_index ≠ d.player_index)
    ∧ ∀ c ∈ (applyRegistryEvents initRegistry es).connections,
        c.player_index < connectIndex (applyRegistryEvents initRegistry es) := by
  refine ⟨?_, connectIndex_fresh _⟩
  have main : ∀ (es : List RegistryEvent) (r : Registry),
      r.connections.Pairwise (fun c d => c.player_index ≠ d.player_index) →
      (applyRegistryEvents r es).connections.Pairwise
        (fun c d => c.player_index ≠ d.player_index) := by
    intro es
    induction es with
    | nil => intro r h; exact h
    | cons e es ih =>
      intro r h
      exact ih (applyRegistryEvent r e) (registry_step_pairwise h e)
  exact main es initRegistry (by simp [initRegistry])

/-- C4 witness: a concrete trace — connect two clients, drop the first,
connect a third — yields live indices 2 and 3, pairwise distinct and both
below the next index 4. -/
theorem registry_indices_unique_witness :
    (⟨9, 2⟩ : PlayerConnection) ∈ (applyRegistryEvents initRegistry
      [RegistryEvent.connect 8, RegistryEvent.connect 9,
       RegistryEvent.disconnect 8, RegistryEvent.connect 10]).connections
    ∧ (applyRegistryEvents initRegistry
      [RegistryEvent.connect 8, RegistryEvent.connect 9,
       RegistryEvent.disconnect 8, RegistryEvent.connect 10]).connections.Pairwise
        (fun c d => c.player_index ≠ d.player_index)
    ∧ (2 : ℕ) < connectIndex (applyRegistryEvents initRegistry
      [RegistryEvent.connect 8, RegistryEvent.connect 9,
       RegistryEvent.disconnect 8, RegistryEvent.connect 10]) :=
  ⟨by decide,
   (registry_indices_unique [RegistryEvent.connect 8, RegistryEvent.connect 9,
     RegistryEvent.disconnect 8, RegistryEvent.connect 10]).1,
   (registry_indices_unique [RegistryEvent.connect 8, RegistryEvent.connect 9,
     RegistryEvent.disconnect 8, RegistryEvent.connect 10]).2 ⟨9, 2⟩ (by decide)⟩

/-- Relaying with redundancy 0 sends exactly one copy per recipient. -/
theorem flatMap_replicate_one {α β : Type _} (l : List α) (f : α → β) :
    (l.flatMap fun a => List.replicate 1 (f a)) = l.map f := by
  induction l with
  | nil => rfl
  | cons x xs ih =>
    rw [List.flatMap_cons, ih, List.replicate_one, List.map_cons,
      List.singleton_append]

/-- With redundancy 0, the unreliable except-sender broadcast is one
unreliable-sequenced packet to each connection whose address differs from
the sender's. -/
theorem sendToAllExcept_redundancy_zero (r : Registry) (address : Addr)
    (message : NetworkMessage) :
    sendToAllExceptAddressUnreliably r address message 0 =
      (r.connections.filter (fun c => c.socket_addr ≠ address)).map (fun c =>
        { dest := c.socket_addr, channel := Channel.unreliableSequenced,
          message := message }) := by
  unfold sendToAllExceptAddressUnreliably
  exact flatMap_replicate_one _ _

/-- No packet of the except-sender broadcasts is addressed to the sender. -/
theorem sendToAllExcept_not_sender (r : Registry) (address : Addr)
    (message : NetworkMessage) (redundancy : ℕ) :
    ∀ p ∈ sendToAllExceptAddressUnreliably r address message redundancy,
      p.dest ≠ address ∧ p.channel = Channel.unreliableSequenced := by
  intro p hp
  unfold sendToAllExceptAddressUnreliably at hp
  rw [List.mem_flatMap] at hp
  obtain ⟨c, hc, hpc⟩ := hp
  obtain ⟨-, hne⟩ := List.mem_filter.mp hc
  obtain rfl := List.eq_of_mem_replicate hpc
  exact ⟨of_decide_eq_true hne, rfl⟩

/-- C5: a movement or look event from a registered connection is accepted
unconditionally — the event, with its index overwritten by the
registry-resolved index of the sender, is queued locally — and is relayed on
the unreliable-sequenced channel with redundancy 0 (exactly one copy) to
every connection whose address differs from the sender's, never back to the
sender. -/
theorem movement_broadcast_exclusion (r : Registry) (sender : Addr)
    (outerIdx net_index : ℕ) (ev : PlayerEvent)
    (hmov : isMovementOrLook ev = true)
    (hreg : getIndexForAddress r sender = some net_index) :
    (handleMovement r sender outerIdx ev).queued = [setEventIndex ev net_index]
    ∧ (handleMovement r sender outerIdx ev).sent =
        (r.connections.filter (fun c => c.socket_addr ≠ sender)).map (fun c =>
          { dest := c.socket_addr, channel := Channel.unreliableSequenced,
            message := NetworkMessage.playerEvent outerIdx
              (setEventIndex ev net_index) })
    ∧ ∀ p ∈ (handleMovement r sender outerIdx ev).sent, p.dest ≠ sender := by
  have hout : handleMovement r sender outerIdx ev =
      { queued := [setEventIndex ev net_index],
        sent := sendToAllExceptAddressUnreliably r sender
          (NetworkMessage.playerEvent outerIdx (setEventIndex ev net_index))
          0 } := by
    simp only [handleMovement, hmov, hreg, if_true]
  refine ⟨by rw [hout], ?_, ?_⟩
  · rw [hout]
    exact sendToAllExcept_redundancy_zero r sender _
  · intro p hp
    rw [hout] at hp
    exact (sendToAllExcept_not_sender r sender _ 0 p hp).1

/-- C5 witness: with three registered connections and sender address 2
(index 2), an incoming MoveForward is queued with index 2 and relayed once,
unreliably, to the connections at addresses 1 and 3 only. -/
theorem movement_broadcast_exclusion_witness :
    isMovementOrLook (PlayerEvent.moveForward 50 true 7 8) = true
    ∧ getIndexForAddress ⟨[⟨1, 1⟩, ⟨2, 2⟩, ⟨3, 3⟩], 3⟩ 2 = some 2
    ∧ (handleMovement ⟨[⟨1, 1⟩, ⟨2, 2⟩, ⟨3, 3⟩], 3⟩ 2 50
        (PlayerEvent.moveForward 50 true 7 8)).queued =
      [setEventIndex (PlayerEvent.moveForward 50 true 7 8) 2]
    ∧ ∀ p ∈ (handleMovement ⟨[⟨1, 1⟩, ⟨2, 2⟩, ⟨3, 3⟩], 3⟩ 2 50
        (PlayerEvent.moveForward 50 true 7 8)).sent, p.dest ≠ 2 :=
  ⟨by decide, by decide,
   (movement_broadcast_exclusion ⟨[⟨1, 1⟩, ⟨2, 2⟩, ⟨3, 3⟩], 3⟩ 2 50 2
     (PlayerEvent.moveForward 50 true 7 8) (by decide) (by decide)).1,
   (movement_broadcast_exclusion ⟨[⟨1, 1⟩, ⟨2, 2⟩, ⟨3, 3⟩], 3⟩ 2 50 2
     (PlayerEvent.moveForward 50 true 7 8) (by decide) (by decide)).2.2⟩

/-- C6: a Fly event from a registered connection with a live player is queued
and relayed exactly when it is a release (`active = false`) or the player has
fuel by the server's own check; every relayed packet carries the event whose
fuel field is the server's authoritative `flight_fuel` and is never sent back
to the sender; and the output is entirely independent of the client-claimed
index and fuel fields. -/
theorem fly_validation_authoritative_fuel (r : Registry) (l : ServerLevel)
    (sender : Addr) (outerIdx claimedIdx : ℕ) (active : Bool)
    (claimedFuel net_index : ℕ) (player : ServerPlayer)
    (hreg : getIndexForAddress r sender = some net_index)
    (hp : getPlayerByIndex l net_index = some player) :
    ((active = false ∨ player.has_fuel = true) →
      (handleFly r l sender outerIdx claimedIdx active claimedFuel).queued =
        [PlayerEvent.fly net_index active player.flight_fuel]
      ∧ ∀ p ∈ (handleFly r l sender outerIdx claimedIdx active
          claimedFuel).sent,
          p.message = NetworkMessage.playerEvent outerIdx
            (PlayerEvent.fly net_index active player.flight_fuel)
          ∧ p.dest ≠ sender)
    ∧ (active = true → player.has_fuel = false →
        handleFly r l sender outerIdx claimedIdx active claimedFuel =
          RouterOutput.empty)
    ∧ ∀ ci cf, handleFly r l sender outerIdx ci active cf =
        handleFly r l sender outerIdx claimedIdx active claimedFuel := by
  refine ⟨?_, ?_, ?_⟩
  · intro hacc
    have hcond : (!active || player.has_fuel) = true := by
      rcases hacc with h | h
      · rw [h]; rfl
      · rw [h, Bool.or_true]
    have hout : handleFly r l sender outerIdx claimedIdx active claimedFuel =
        { queued := [PlayerEvent.fly net_index active player.flight_fuel],
          sent := sendToAllExceptAddressUnreliably r sender
            (NetworkMessage.playerEvent outerIdx
              (PlayerEvent.fly net_index active player.flight_fuel)) 0 } := by
      simp only [handleFly, hreg, hp, hcond, if_true]
    refine ⟨by rw [hout], ?_⟩
    intro p hpk
    rw [hout] at hpk
    obtain ⟨c, hc, hpc⟩ := List.mem_flatMap.mp hpk
    obtain ⟨-, hne⟩ := List.mem_filter.mp hc
    obtain rfl := List.eq_of_mem_replicate hpc
    exact ⟨rfl, of_decide_eq_true hne⟩
  · intro hact hfuel
    simp only [handleFly, hreg, hp, hact, hfuel, Bool.not_true,
      Bool.or_false, Bool.false_eq_true, if_false]
  · intro ci cf
    simp only [handleFly]

/-- C6 witness: sender address 1 resolves to index 1, whose player has 50
fuel on the server; an active Fly claiming index 9 and fuel 9999 is queued
carrying the server's fuel value 50. -/
theorem fly_validation_authoritative_fuel_witness :
    getIndexForAddress ⟨[⟨1, 1⟩, ⟨2, 2⟩], 2⟩ 1 = some 1
    ∧ getPlayerByIndex ⟨[⟨1, 0, 50⟩]⟩ 1 = some ⟨1, 0, 50⟩
    ∧ (⟨1, 0, 50⟩ : ServerPlayer).has_fuel = true
    ∧ (handleFly ⟨[⟨1, 1⟩, ⟨2, 2⟩], 2⟩ ⟨[⟨1, 0, 50⟩]⟩ 1 9 9 true 9999).queued =
      [PlayerEvent.fly 1 true 50] :=
  ⟨by decide, by decide, by decide,
   ((fly_validation_authoritative_fuel ⟨[⟨1, 1⟩, ⟨2, 2⟩], 2⟩ ⟨[⟨1, 0, 50⟩]⟩ 1 9
     9 true 9999 1 ⟨1, 0, 50⟩ (by decide) (by decide)).1
     (Or.inr (by decide))).1⟩

/-- The tracked reconciliation error is never negative. -/
theorem trackedError_nonneg (c : PlayerController) : 0 ≤ trackedError c := by
  unfold trackedError
  cases c.new_states.head? with
  | none => exact le_rfl
  | some s =>
    cases c.previous_states.head? with
    | none => exact le_rfl
    | some p => exact abs_nonneg _

/-- With no pending snapshot the tracked error is zero. -/
theorem trackedError_empty (c : PlayerController) (h : c.new_states = []) :
    trackedError c = 0 := by
  simp [trackedError, h]

/-- With no pending snapshot the reconciliation step does nothing. -/
theorem interpolate_empty (body : ℚ) (c : PlayerController) (dt : ℚ)
    (h : c.new_states = []) : interpolateState body c dt = (body, c) := by
  simp [interpolateState, h]

/-- With no pending snapshot, iterating the reconciliation step does
nothing. -/
theorem stepN_of_empty (dt : ℚ) (n : ℕ) (st : ℚ × PlayerController)
    (h : st.2.new_states = []) : stepN dt n st = st := by
  induction n with
  | zero => rfl
  | succ n ih =>
    show stepN dt n (interpolateState st.1 st.2 dt) = st
    rw [interpolate_empty st.1 st.2 dt h, Prod.mk.eta, ih]

/-- Magnitude of the correction offset: moving from `b` toward `a` by the
fraction `m / |a - b|` of the difference vector covers distance `m`. -/
theorem abs_offset (a b m : ℚ) (hpos : 0 < |a - b|) (hm0 : 0 ≤ m) :
    |(a - b) * (m / |a - b|)| = m := by
  have hne : |a - b| ≠ 0 := ne_of_gt hpos
  rw [abs_mul, abs_div, abs_abs, abs_of_nonneg hm0]
  field_simp

/-- Residual error after the correction offset: moving from `b` toward `a`
by distance `m ≤ |a - b|` leaves error `|a - b| - m`. -/
theorem abs_sub_offset (a b m : ℚ) (hpos : 0 < |a - b|) (hm0 : 0 ≤ m)
    (hm1 : m ≤ |a - b|) :
    |a - (b + (a - b) * (m / |a - b|))| = |a - b| - m := by
  have hne : |a - b| ≠ 0 := ne_of_gt hpos
  have h1 : a - (b + (a - b) * (m / |a - b|)) =
      (a - b) * (1 - m / |a - b|) := by
    field_simp
    ring
  rw [h1, abs_mul]
  have h2 : 0 ≤ 1 - m / |a - b| := by
    rw [sub_nonneg, div_le_one hpos]
    exact hm1
  rw [abs_of_nonneg h2, mul_sub, mul_one, mul_div_cancel₀ _ hne]

/-- One reconciliation step during a correction episode: with a single
pending snapshot, a recorded previous state, and `smoothing_speed` at least
`L ≥ 0`, the step either fully reconciles (snapshot popped, error zero) or
keeps the episode running with `smoothing_speed` still at least `L` and the
tracked error reduced by at least `dt * L`. -/
theorem interpolate_step_bound (body : ℚ) (c : PlayerController) (dt L : ℚ)
    (s : PlayerState) (hdt : 0 < dt) (hL : 0 ≤ L)
    (hnew : c.new_states = [s]) (hprev : c.previous_states ≠ [])
    (hspeed : L ≤ c.smoothing_speed) :
    ((interpolateState body c dt).2.new_states = []
      ∧ trackedError (interpolateState body c dt).2 = 0)
    ∨ ((interpolateState body c dt).2.new_states = [s]
      ∧ (interpolateState body c dt).2.previous_states ≠ []
      ∧ L ≤ (interpolateState body c dt).2.smoothing_speed
      ∧ trackedError (interpolateState body c dt).2 ≤
          trackedError c - dt * L) := by
  obtain ⟨p, rest, hpr⟩ := List.exists_cons_of_ne_nil hprev
  have hh1 : c.new_states.head? = some s := by rw [hnew]; rfl
  have hh2 : c.previous_states.head? = some p := by rw [hpr]; rfl
  have herrc : trackedError c = |s.position - p.position| := by
    simp [trackedError, hh1, hh2]
  by_cases hmag : 0 < |s.position - p.position|
  · by_cases hmove : min |s.position - p.position|
        (dt * max c.smoothing_speed (max MIN_SMOOTH_SPEED
          (|s.position - p.position| / TARGET_CATCHUP_TIME)))
        = |s.position - p.position|
    · left
      have hns : (interpolateState body c dt).2.new_states = [] := by
        simp only [interpolateState, hh1, hh2, if_pos hmag, if_pos hmove]
        rw [hnew]
        rfl
      exact ⟨hns, trackedError_empty _ hns⟩
    · right
      have hstep : interpolateState body c dt =
          (body + (s.position - p.position) *
            (min |s.position - p.position|
              (dt * max c.smoothing_speed (max MIN_SMOOTH_SPEED
                (|s.position - p.position| / TARGET_CATCHUP_TIME))) /
              |s.position - p.position|),
           { c with
              previous_states := c.previous_states.map (fun st =>
                { st with position := st.position +
                    (s.position - p.position) *
                    (min |s.position - p.position|
                      (dt * max c.smoothing_speed (max MIN_SMOOTH_SPEED
                        (|s.position - p.position| / TARGET_CATCHUP_TIME))) /
                      |s.position - p.position|) }),
              smoothing_speed := max c.smoothing_speed (max MIN_SMOOTH_SPEED
                (|s.position - p.position| / TARGET_CATCHUP_TIME)) }) := by
        simp only [interpolateState, hh1, hh2, if_pos hmag, if_neg hmove]
      set S' := max c.smoothing_speed (max MIN_SMOOTH_SPEED
        (|s.position - p.position| / TARGET_CATCHUP_TIME)) with hS'def
      have hS'L : L ≤ S' := le_trans hspeed (le_max_left _ _)
      have hS'0 : 0 ≤ S' := le_trans hL hS'L
      have hmin : min |s.position - p.position| (dt * S') = dt * S' := by
        rcases min_choice |s.position - p.position| (dt * S') with h | h
        · exact absurd h hmove
        · exact h
      have hmove0 : 0 ≤ min |s.position - p.position| (dt * S') := by
        rw [hmin]
        exact mul_nonneg (le_of_lt hdt) hS'0
      have hmove1 : min |s.position - p.position| (dt * S') ≤
          |s.position - p.position| := min_le_left _ _
      refine ⟨?_, ?_, ?_, ?_⟩
      · rw [hstep, hnew]
      · rw [hstep]
        simp [hpr]
      · rw [hstep]
        exact hS'L
      · have herr' : trackedError (interpolateState body c dt).2 =
            |s.position - p.position| -
              min |s.position - p.position| (dt * S') := by
          rw [hstep]
          have hmap : (c.previous_states.map (fun st =>
              { st with position := st.position +
                  (s.position - p.position) *
                  (min |s.position - p.position| (dt * S') /
                    |s.position - p.position|) })).head? =
              some { p with position := p.position +
                  (s.position - p.position) *
                  (min |s.position - p.position| (dt * S') /
                    |s.position - p.position|) } := by
            rw [hpr]
            rfl
          simp only [trackedError, hh1, hmap]
          exact abs_sub_offset s.position p.position _ hmag hmove0 hmove1
        rw [herr', herrc, hmin]
        have : dt * L ≤ dt * S' :=
          mul_le_mul_of_nonneg_left hS'L (le_of_lt hdt)
        linarith
  · left
    have hns : (interpolateState body c dt).2.new_states = [] := by
      simp only [interpolateState, hh1, hh2, if_neg hmag]
      rw [hnew]
      rfl
    exact ⟨hns, trackedError_empty _ hns⟩

/-- Iterated reconciliation with a saturated lower speed bound `L`: after
`n` ticks the tracked error is at most `max 0 (Δ0 - n·dt·L)`. -/
theorem stepN_error_bound (dt L : ℚ) (s : PlayerState) (hdt : 0 < dt)
    (hL : 0 ≤ L) :
    ∀ (n : ℕ) (st : ℚ × PlayerController),
      (st.2.new_states = [] ∨
        (st.2.new_states = [s] ∧ st.2.previous_states ≠ []
          ∧ L ≤ st.2.smoothing_speed)) →
      trackedError (stepN dt n st).2 ≤
        max 0 (trackedError st.2 - n * dt * L) := by
  intro n
  induction n with
  | zero =>
    intro st hinv
    have h0 : ((0 : ℕ) : ℚ) * dt * L = 0 := by push_cast; ring
    rw [stepN, h0, sub_zero]
    exact le_max_right _ _
  | succ n ih =>
    intro st hinv
    rcases hinv with hempty | ⟨hnew, hprev, hspeed⟩
    · rw [stepN_of_empty dt (n + 1) st hempty, trackedError_empty _ hempty]
      exact le_max_left _ _
    · show trackedError (stepN dt n (interpolateState st.1 st.2 dt)).2 ≤ _
      rcases interpolate_step_bound st.1 st.2 dt L s hdt hL hnew hprev hspeed
        with ⟨hdone, -⟩ | ⟨hnew', hprev', hspeed', herr'⟩
      · rw [stepN_of_empty dt n _ hdone, trackedError_empty _ hdone]
        exact le_max_left _ _
      · have hbound := ih (interpolateState st.1 st.2 dt)
          (Or.inr ⟨hnew', hprev', hspeed'⟩)
        refine le_trans hbound ?_
        have hmono : trackedError (interpolateState st.1 st.2 dt).2 -
            n * dt * L ≤ trackedError st.2 - (n + 1 : ℕ) * dt * L := by
          push_cast
          linarith
        exact max_le_max le_rfl hmono

/-- C1: for a reconciliation step with a pending snapshot S and oldest
previous state P (positional error Δ = |S.position − P.position| > 0), the
applied displacement equals `min(Δ, dt·smoothing_speed)` for the freshly
updated smoothing speed and never exceeds Δ (no overshoot); while the
snapshot stays pending the smoothing speed never decreases; and once the
smoothing speed is at least Δ0/TARGET_CATCHUP_TIME, with no further
snapshots arriving the tracked error reaches exactly 0 within any `n` ticks
with `n·dt ≥ TARGET_CATCHUP_TIME` — in particular within
`ceil(TARGET_CATCHUP_TIME / dt)` ticks, which satisfies that inequality. -/
theorem interpolate_reconciliation (body : ℚ) (c : PlayerController)
    (dt : ℚ) (S P s : PlayerState) :
    (0 < dt → c.new_states.head? = some S →
      c.previous_states.head? = some P → 0 < |S.position - P.position| →
      |(interpolateState body c dt).1 - body| =
        min |S.position - P.position|
          (dt * max c.smoothing_speed (max MIN_SMOOTH_SPEED
            (|S.position - P.position| / TARGET_CATCHUP_TIME)))
      ∧ |(interpolateState body c dt).1 - body| ≤ |S.position - P.position|)
    ∧ ((interpolateState body c dt).2.new_states.length =
          c.new_states.length →
        c.smoothing_speed ≤ (interpolateState body c dt).2.smoothing_speed)
    ∧ (0 < dt → c.new_states = [s] → c.previous_states ≠ [] →
        0 < trackedError c →
        trackedError c / TARGET_CATCHUP_TIME ≤ c.smoothing_speed →
        ∀ n : ℕ, TARGET_CATCHUP_TIME ≤ n * dt →
          trackedError (stepN dt n (body, c)).2 = 0)
    ∧ (0 < dt →
        TARGET_CATCHUP_TIME ≤
          (Nat.ceil (TARGET_CATCHUP_TIME / dt) : ℚ) * dt) := by
  refine ⟨?_, ?_, ?_, ?_⟩
  · intro hdt hS hP hpos
    set S' := max c.smoothing_speed (max MIN_SMOOTH_SPEED
      (|S.position - P.position| / TARGET_CATCHUP_TIME)) with hS'def
    have hS'0 : 0 ≤ S' := by
      have : (0 : ℚ) ≤ MIN_SMOOTH_SPEED := by norm_num [MIN_SMOOTH_SPEED, MOVEMENT_SPEED]
      exact le_trans this (le_trans (le_max_left _ _) (le_max_right _ _))
    have hmove0 : 0 ≤ min |S.position - P.position| (dt * S') :=
      le_min (abs_nonneg _) (mul_nonneg (le_of_lt hdt) hS'0)
    have hfst : (interpolateState body c dt).1 =
        body + (S.position - P.position) *
          (min |S.position - P.position| (dt * S') /
            |S.position - P.position|) := by
      by_cases hmove : min |S.position - P.position| (dt * S') =
          |S.position - P.position|
      · simp only [interpolateState, hS, hP, if_pos hpos, if_pos hmove]
      · simp only [interpolateState, hS, hP, if_pos hpos, if_neg hmove]
    rw [hfst, add_sub_cancel_left]
    constructor
    · exact abs_offset S.position P.position _ hpos hmove0
    · rw [abs_offset S.position P.position _ hpos hmove0]
      exact min_le_left _ _
  · intro hlen
    by_cases hn : c.new_states = []
    · rw [interpolate_empty body c dt hn]
    · obtain ⟨s0, t0, hn0⟩ := List.exists_cons_of_ne_nil hn
      have hh1 : c.new_states.head? = some s0 := by rw [hn0]; rfl
      by_cases hp : c.previous_states = []
      · have : interpolateState body c dt = (body, c) := by
          simp [interpolateState, hh1, hp]
        rw [this]
      · obtain ⟨p0, t1, hp0⟩ := List.exists_cons_of_ne_nil hp
        have hh2 : c.previous_states.head? = some p0 := by rw [hp0]; rfl
        by_cases hmag : 0 < |s0.position - p0.position|
        · by_cases hmove : min |s0.position - p0.position|
              (dt * max c.smoothing_speed (max MIN_SMOOTH_SPEED
                (|s0.position - p0.position| / TARGET_CATCHUP_TIME)))
              = |s0.position - p0.position|
          · exfalso
            have : (interpolateState body c dt).2.new_states =
                c.new_states.eraseIdx 0 := by
              simp only [interpolateState, hh1, hh2, if_pos hmag,
                if_pos hmove]
            rw [this, hn0] at hlen
            simp at hlen
          · have : (interpolateState body c dt).2.smoothing_speed =
                max c.smoothing_speed (max MIN_SMOOTH_SPEED
                  (|s0.position - p0.position| / TARGET_CATCHUP_TIME)) := by
              simp only [interpolateState, hh1, hh2, if_pos hmag,
                if_neg hmove]
            rw [this]
            exact le_max_left _ _
        · exfalso
          have : (interpolateState body c dt).2.new_states =
              c.new_states.eraseIdx 0 := by
            simp only [interpolateState, hh1, hh2, if_neg hmag]
          rw [this, hn0] at hlen
          simp at hlen
  · intro hdt hnew hprev herr0 hsat
    intro n hn
    have hT : (0 : ℚ) < TARGET_CATCHUP_TIME := by
      norm_num [TARGET_CATCHUP_TIME]
    have hL : 0 ≤ trackedError c / TARGET_CATCHUP_TIME :=
      div_nonneg (trackedError_nonneg c) (le_of_lt hT)
    have hbound := stepN_error_bound dt (trackedError c / TARGET_CATCHUP_TIME)
      s hdt hL n (body, c) (Or.inr ⟨hnew, hprev, hsat⟩)
    have hclose : trackedError c -
        n * dt * (trackedError c / TARGET_CATCHUP_TIME) ≤ 0 := by
      have h1 : TARGET_CATCHUP_TIME * (trackedError c / TARGET_CATCHUP_TIME) =
          trackedError c := mul_div_cancel₀ _ (ne_of_gt hT)
      have h2 : TARGET_CATCHUP_TIME *
          (trackedError c / TARGET_CATCHUP_TIME) ≤
          (n * dt) * (trackedError c / TARGET_CATCHUP_TIME) :=
        mul_le_mul_of_nonneg_right hn hL
      rw [h1] at h2
      linarith
    have hmax : max 0 (trackedError c -
        n * dt * (trackedError c / TARGET_CATCHUP_TIME)) = 0 :=
      max_eq_left hclose
    rw [hmax] at hbound
    exact le_antisymm hbound (trackedError_nonneg _)
  · intro hdt
    have h1 : TARGET_CATCHUP_TIME / dt ≤
        (Nat.ceil (TARGET_CATCHUP_TIME / dt) : ℚ) := Nat.le_ceil _
    have h2 : (TARGET_CATCHUP_TIME / dt) * dt ≤
        (Nat.ceil (TARGET_CATCHUP_TIME / dt) : ℚ) * dt :=
      mul_le_mul_of_nonneg_right h1 (le_of_lt hdt)
    rwa [div_mul_cancel₀ _ (ne_of_gt hdt)] at h2

/-- C1 witness: an initial error of 1 with `smoothing_speed` saturated at
`1 / 0.15 = 20/3` and `dt = 1/60`: the tracked error reaches exactly 0
within 9 = ceil(0.15/dt) ticks. -/
theorem interpolate_reconciliation_witness :
    (0 : ℚ) < 1/60
    ∧ (PlayerController.mk false false false false false false false 0 0 0 0
        false [PlayerState.mk 0 1 0 0 0 false 0]
        [PlayerState.mk 0 0 0 0 0 false 0] (20/3)).new_states =
      [PlayerState.mk 0 1 0 0 0 false 0]
    ∧ (PlayerController.mk false false false false false false false 0 0 0 0
        false [PlayerState.mk 0 1 0 0 0 false 0]
        [PlayerState.mk 0 0 0 0 0 false 0] (20/3)).previous_states ≠ []
    ∧ 0 < trackedError (PlayerController.mk false false false false false
        false false 0 0 0 0 false [PlayerState.mk 0 1 0 0 0 false 0]
        [PlayerState.mk 0 0 0 0 0 false 0] (20/3))
    ∧ TARGET_CATCHUP_TIME ≤ (9 : ℕ) * (1/60 : ℚ)
    ∧ trackedError (stepN (1/60) 9 (0,
        PlayerController.mk false false false false false false false 0 0 0 0
          false [PlayerState.mk 0 1 0 0 0 false 0]
          [PlayerState.mk 0 0 0 0 0 false 0] (20/3))).2 = 0 :=
  ⟨by norm_num, rfl, by simp, by norm_num [trackedError],
   by norm_num [TARGET_CATCHUP_TIME],
   (interpolate_reconciliation 0
      (PlayerController.mk false false false false false false false 0 0 0 0
        false [PlayerState.mk 0 1 0 0 0 false 0]
        [PlayerState.mk 0 0 0 0 0 false 0] (20/3))
      (1/60) (PlayerState.mk 0 1 0 0 0 false 0)
      (PlayerState.mk 0 0 0 0 0 false 0)
      (PlayerState.mk 0 1 0 0 0 false 0)).2.2.1
     (by norm_num) rfl (by simp) (by norm_num [trackedError])
     (by norm_num [trackedError, TARGET_CATCHUP_TIME]) 9
     (by norm_num [TARGET_CATCHUP_TIME])⟩

end Breakfloor
